import Mathlib

/-!
Verification of the uscope test-asset programs against their specification.

The repository's source files are four standalone Rust programs under
`src/assets/`:
  - `rustbacktrace/main.rs` — the call-chain tracer (six functions
    `func_a` … `func_f` plus `main`);
  - `rustloop/src/main.rs`  — an unbounded sleep loop printing a pid and a
    counter;
  - `rustinline/main.rs`    — an inlining demo with two behaviorally
    identical functions;
  - `rustprint/main.rs`     — a primitive-type printing demo (not needed by
    any claim).

Each program only prints to standard output, so a run is modelled as the
list of lines it prints, in order.  Machine integers (`i32` in the loop and
inlining programs) are modelled as `Int` with explicit two's-complement
wrapping at 32 bits, matching Rust's release-mode overflow semantics.
-/

/-! ## The call-chain tracer (`src/assets/rustbacktrace/main.rs`) -/

/-- The six named operations of the tracer program. -/
inductive Func : Type
  | fa | fb | fc | fd | fe | ff
deriving DecidableEq, Repr

/-- The label each operation prints (its own name in the Rust source). -/
def Func.name : Func → String
  | .fa => "func_a"
  | .fb => "func_b"
  | .fc => "func_c"
  | .fd => "func_d"
  | .fe => "func_e"
  | .ff => "func_f"

/-- The (unique) function each operation calls, read off the source:
`func_e` calls nothing; `func_d` calls `func_e`; `func_c` calls `func_d`;
`func_b` calls `func_c`; `func_a` calls `func_b`; `func_f` calls `func_e`. -/
def Func.callee : Func → Option Func
  | .fa => some .fb
  | .fb => some .fc
  | .fc => some .fd
  | .fd => some .fe
  | .fe => none
  | .ff => some .fe

/-- Whether the operation prints its label before delegating.  Only
`func_f` does (the `// reverse the order` case in the source); every other
operation prints after its call returns. -/
def Func.printsBeforeCall : Func → Bool
  | .ff => true
  | _ => false

/-- Lines printed by one invocation of `func_e`:
`fn func_e() { println!("func_e"); }`. -/
def run_func_e : List String := ["func_e"]

/-- Lines printed by one invocation of `func_d`:
`fn func_d() { func_e(); println!("func_d"); }`. -/
def run_func_d : List String := run_func_e ++ ["func_d"]

/-- Lines printed by one invocation of `func_c`:
`fn func_c() { func_d(); println!("func_c"); }`. -/
def run_func_c : List String := run_func_d ++ ["func_c"]

/-- Lines printed by one invocation of `func_b`:
`fn func_b() { func_c(); println!("func_b"); }`. -/
def run_func_b : List String := run_func_c ++ ["func_b"]

/-- Lines printed by one invocation of `func_a`:
`fn func_a() { func_b(); println!("func_a"); }`. -/
def run_func_a : List String := run_func_b ++ ["func_a"]

/-- Lines printed by one invocation of `func_f`:
`fn func_f() { println!("func_f"); func_e(); }` — label first, then call. -/
def run_func_f : List String := "func_f" :: run_func_e

/-- Lines printed by one invocation of the given operation. -/
def run : Func → List String
  | .fa => run_func_a
  | .fb => run_func_b
  | .fc => run_func_c
  | .fd => run_func_d
  | .fe => run_func_e
  | .ff => run_func_f

/-- The direct calls `main` makes, in source order:
`fn main() { func_a(); func_b(); func_c(); func_d(); func_e(); func_f(); }`. -/
def mainCalls : List Func := [.fa, .fb, .fc, .fd, .fe, .ff]

/-- Lines printed by one run of the tracer program's `main`. -/
def run_main : List String := mainCalls.flatMap run

/-- A full run of the tracer program.  The source's `main` reads no
arguments, no environment and no other input, so the (ignored) parameter
stands for whatever environment a run is started in. -/
def rustbacktrace_run (_environment : List String) : List String := run_main

/-- Transitive callees of `func_e`, in call order: none. -/
def chain_func_e : List Func := []

/-- Transitive callees of `func_d`, in call order. -/
def chain_func_d : List Func := Func.fe :: chain_func_e

/-- Transitive callees of `func_c`, in call order. -/
def chain_func_c : List Func := Func.fd :: chain_func_d

/-- Transitive callees of `func_b`, in call order. -/
def chain_func_b : List Func := Func.fc :: chain_func_c

/-- Transitive callees of `func_a`, in call order. -/
def chain_func_a : List Func := Func.fb :: chain_func_b

/-- Transitive callees of `func_f`, in call order. -/
def chain_func_f : List Func := [Func.fe]

/-- Transitive callees of each operation. -/
def chain : Func → List Func
  | .fa => chain_func_a
  | .fb => chain_func_b
  | .fc => chain_func_c
  | .fd => chain_func_d
  | .fe => chain_func_e
  | .ff => chain_func_f

/-! ## The sleep loop (`src/assets/rustloop/src/main.rs`)

```rust
fn main() {
    let second = time::Duration::from_millis(1000);
    let pid = process::id();
    let mut ndx = 0;
    loop {
        println!("rust looping (pid: {}): {}", pid, ndx);
        ndx += 1;
        thread::sleep(second);
    }
}
```

`ndx` is an `i32` (the default integer type for `let mut ndx = 0`), so
`ndx += 1` wraps at 32 bits once it overflows (release-mode semantics;
with overflow checks enabled the increment would instead abort the
process at the same point).  The `thread::sleep` call affects only
timing, not output, and is not modelled.  The loop has no `break`,
`return` or exit condition, so its trace is total: the model assigns a
printed line to every iteration index `k : Nat`. -/

/-- Two's-complement wrapping of an integer into the `i32` range
`[-2^31, 2^31)`. -/
def wrapI32 (n : Int) : Int := (n + 2147483648) % 4294967296 - 2147483648

/-- One pass of the loop body's counter update, `ndx += 1` on an `i32`. -/
def rustloop_step (ndx : Int) : Int := wrapI32 (ndx + 1)

/-- The value of `ndx` at the start of iteration `k` (`ndx` is initialised
to `0` before the loop and incremented once per iteration). -/
def rustloop_ndx : Nat → Int
  | 0 => 0
  | k + 1 => rustloop_step (rustloop_ndx k)

/-- The data interpolated into the one line each loop iteration prints:
the process identifier and the current counter. -/
structure LoopLine where
  pid : Nat
  counter : Int
deriving DecidableEq, Repr

/-- Rendering of `println!("rust looping (pid: {}): {}", pid, ndx)`. -/
def renderLoopLine (l : LoopLine) : String :=
  "rust looping (pid: " ++ toString l.pid ++ "): " ++ toString l.counter

/-- The line data printed at iteration `k` of a run whose single
`process::id()` call (made once, before the loop) returned `pid`. -/
def rustloop_lineData (pid : Nat) (k : Nat) : LoopLine :=
  { pid := pid, counter := rustloop_ndx k }

/-- The text line printed at iteration `k` of a run with process id `pid`. -/
def rustloop_output (pid : Nat) (k : Nat) : String :=
  renderLoopLine (rustloop_lineData pid k)

/-! ## The inlining demo (`src/assets/rustinline/main.rs`) -/

/-- Lines printed by `inlined_func(n)`:
`#[inline(always)] fn inlined_func(n: i32) { let res = n * 2; println!("{}!", res); }`.
The multiplication is on `i32`, hence the 32-bit wrap. -/
def inlined_func (n : Int) : List String := [toString (wrapI32 (n * 2)) ++ "!"]

/-- Lines printed by `not_inlined_func(n)`:
`fn not_inlined_func(n: i32) { let res = n * 2; println!("{}!", res); }`. -/
def not_inlined_func (n : Int) : List String := [toString (wrapI32 (n * 2)) ++ "!"]

/-- Lines printed by the inlining demo's `main`:
`fn main() { not_inlined_func(123); inlined_func(456); not_inlined_func(789); }`. -/
def rustinline_main : List String :=
  not_inlined_func 123 ++ inlined_func 456 ++ not_inlined_func 789

/-! ## Helper lemmas -/

/-- Wrapping is idempotent across an increment: updating an already
wrapped value and wrapping again is the same as wrapping the unbounded
successor. -/
theorem wrapI32_wrap_add_one (n : Int) : wrapI32 (wrapI32 n + 1) = wrapI32 (n + 1) := by
  simp only [wrapI32]
  omega

/-- Closed form of the loop counter: at iteration `k` it holds the 32-bit
wrap of `k`. -/
theorem rustloop_ndx_eq_wrap (k : Nat) : rustloop_ndx k = wrapI32 k := by
  induction k with
  | zero => decide
  | succ n ih =>
    simp only [rustloop_ndx, rustloop_step, ih, wrapI32_wrap_add_one]
    norm_num

/-- An integer already inside the `i32` range is unchanged by wrapping. -/
theorem wrapI32_eq_self (n : Int) (h1 : -2147483648 ≤ n) (h2 : n < 2147483648) :
    wrapI32 n = n := by
  simp only [wrapI32]
  omega

/-! ## Claims about the call-chain tracer -/

/-- C1 (counterexample): the spec's 11-line transcript is not what the
program prints.  `main` calls each of the six functions directly, and the
direct calls to `func_b`, `func_c` and `func_d` each reproduce their whole
nested output rather than a single line, so the run has 17 lines. -/
theorem C1_eleven_line_transcript_refuted :
    run_main ≠ ["func_e", "func_d", "func_c", "func_b", "func_a", "func_b",
      "func_c", "func_d", "func_e", "func_f", "func_e"] ∧
    run_main.length = 17 := by
  decide

/-- C1 (amended): running the tracer program's entry point produces exactly
this 17-line transcript, in order: the five lines of `func_a()`, the four
of `func_b()`, the three of `func_c()`, the two of `func_d()`, the one of
`func_e()`, and the two of `func_f()`. -/
theorem C1_main_transcript :
    run_main = ["func_e", "func_d", "func_c", "func_b", "func_a",
      "func_e", "func_d", "func_c", "func_b",
      "func_e", "func_d", "func_c",
      "func_e", "func_d",
      "func_e",
      "func_f", "func_e"] := by
  decide

/-- C2 (counterexample): `main` does not invoke exactly four of the six
named operations directly: its body is six direct calls, one to each
operation. -/
theorem C2_four_direct_calls_refuted :
    mainCalls = [Func.fa, Func.fb, Func.fc, Func.fd, Func.fe, Func.ff] ∧
    mainCalls.length = 6 ∧
    mainCalls.length ≠ 4 := by
  decide

/-- C2 (amended): `main` invokes all six named operations directly, in
sequence; four of them (`func_b`, `func_c`, `func_d`, `func_e`) are in
addition reached transitively, through the call chain rooted at the direct
call to `func_a`. -/
theorem C2_main_calls_all_six :
    mainCalls = [Func.fa, Func.fb, Func.fc, Func.fd, Func.fe, Func.ff] ∧
    chain Func.fa = [Func.fb, Func.fc, Func.fd, Func.fe] := by
  decide

/-- C3: every invocation of a named operation prints that operation's own
label exactly once beyond what its nested call contributes, and its output
is exactly its (unique) callee's output with its own label prepended
(`func_f`) or appended (all others) — i.e. invocations nest exactly as the
fixed call graph dictates. -/
theorem C3_label_once_and_nesting_per_call_graph :
    ∀ f : Func,
      (run f).count f.name =
        1 + (match f.callee with
             | none => 0
             | some g => (run g).count f.name) ∧
      run f =
        (if f.printsBeforeCall then [f.name] else []) ++
        (match f.callee with
         | none => []
         | some g => run g) ++
        (if f.printsBeforeCall then [] else [f.name]) := by
  intro f
  cases f <;> decide

/-- C4: in `func_f`'s output the label "func_f" appears strictly before
"func_e" (pre-order); for every other caller/callee pair the callee's
label appears strictly before the caller's (post-order). -/
theorem C4_preorder_func_f_postorder_others :
    ∀ f g : Func, f.callee = some g →
      (if f = Func.ff then
        List.indexOf f.name (run f) < List.indexOf g.name (run f)
       else
        List.indexOf g.name (run f) < List.indexOf f.name (run f)) := by
  intro f g
  cases f <;> cases g <;> decide

/-- C4 (witness): instantiated at the caller/callee pair `func_d`/`func_e`,
whose output prints "func_e" strictly before "func_d". -/
theorem C4_preorder_func_f_postorder_others_witness :
    Func.callee Func.fd = some Func.fe ∧
    (if Func.fd = Func.ff then
      List.indexOf (Func.name Func.fd) (run Func.fd) <
        List.indexOf (Func.name Func.fe) (run Func.fd)
     else
      List.indexOf (Func.name Func.fe) (run Func.fd) <
        List.indexOf (Func.name Func.fd) (run Func.fd)) :=
  ⟨by decide, C4_preorder_func_f_postorder_others Func.fd Func.fe (by decide)⟩

/-- C5: invoking `func_d` directly, in isolation from `main`, prints
exactly the two lines "func_e" then "func_d". -/
theorem C5_func_d_isolated :
    run Func.fd = ["func_e", "func_d"] := by
  decide

/-- C6: the tracer program is deterministic: its `main` reads no input of
any kind, so any two runs, whatever environment each is started in,
print byte-identical output. -/
theorem C6_deterministic :
    ∀ env1 env2 : List String, rustbacktrace_run env1 = rustbacktrace_run env2 :=
  fun _ _ => rfl

/-- C10: invoking `func_a` directly, in isolation from `main`, prints
exactly the five lines "func_e", "func_d", "func_c", "func_b", "func_a". -/
theorem C10_func_a_isolated :
    run Func.fa = ["func_e", "func_d", "func_c", "func_b", "func_a"] := by
  decide

/-! ## Claims about the sleep loop and the inlining demo -/

/-- C7 (counterexample): the counter is not strictly greater on every
iteration than on the previous one.  `ndx` is an `i32`: at iteration
2^31 - 1 it prints 2147483647, and the following increment wraps, so
iteration 2^31 prints -2147483648, which is smaller. -/
theorem C7_strict_increase_refuted :
    rustloop_ndx 2147483647 = 2147483647 ∧
    rustloop_ndx 2147483648 = -2147483648 ∧
    ¬ rustloop_ndx 2147483647 < rustloop_ndx 2147483648 := by
  have h1 := rustloop_ndx_eq_wrap 2147483647
  have h2 := rustloop_ndx_eq_wrap 2147483648
  refine ⟨?_, ?_, ?_⟩
  · rw [h1]; decide
  · rw [h2]; decide
  · rw [h1, h2]; decide

/-- C7 (amended): the sleep-loop program runs an unbounded loop with no
termination condition — the trace assigns a printed line to every
iteration `k` — and at iteration `k` it prints one line containing the
process identifier and the counter, which advances by exactly one in
32-bit wrapping arithmetic each iteration, and is strictly greater than
on the previous iteration for as long as it has not yet wrapped (the
first 2^31 iterations). -/
theorem C7_loop_trace :
    ∀ (pid k : Nat),
      rustloop_output pid k =
        "rust looping (pid: " ++ toString pid ++ "): " ++ toString (wrapI32 k) ∧
      rustloop_ndx (k + 1) = wrapI32 (rustloop_ndx k + 1) ∧
      (k + 1 < 2147483648 → rustloop_ndx k < rustloop_ndx (k + 1)) := by
  intro pid k
  refine ⟨?_, rfl, ?_⟩
  · exact congrArg
      (fun z => "rust looping (pid: " ++ toString pid ++ "): " ++ toString z)
      (rustloop_ndx_eq_wrap k)
  · intro hk
    have h1 := rustloop_ndx_eq_wrap k
    have h2 := rustloop_ndx_eq_wrap (k + 1)
    rw [h1, h2]
    simp only [wrapI32]
    omega

/-- C7 (witness): at iteration 0 of a run with pid 7 the loop prints
"rust looping (pid: 7): 0", and the counter strictly increases into
iteration 1. -/
theorem C7_loop_trace_witness :
    rustloop_output 7 0 =
      "rust looping (pid: " ++ toString 7 ++ "): " ++ toString (wrapI32 0) ∧
    (0 + 1 < 2147483648 ∧ rustloop_ndx 0 < rustloop_ndx (0 + 1)) :=
  ⟨(C7_loop_trace 7 0).1, by decide, (C7_loop_trace 7 0).2.2 (by decide)⟩

/-- C8 (counterexample): on the `i32` input 2^30 the printed line is not
"{2*n}!": the doubling `n * 2` overflows `i32` and wraps, so both
functions print "-2147483648!" rather than "2147483648!". -/
theorem C8_exact_double_refuted :
    inlined_func 1073741824 = ["-2147483648!"] ∧
    toString (2 * (1073741824 : Int)) ++ "!" = "2147483648!" ∧
    inlined_func 1073741824 ≠ [toString (2 * (1073741824 : Int)) ++ "!"] := by
  refine ⟨?_, ?_, ?_⟩ <;> decide

/-- C8 (amended): for every `i32` input `n`, `inlined_func(n)` prints
exactly the same output as `not_inlined_func(n)`; that output is the
single line "{2*n}!" whenever the doubling does not overflow `i32`
(that is, for -2^30 ≤ n < 2^30). -/
theorem C8_inline_equivalence :
    ∀ n : Int, -2147483648 ≤ n → n < 2147483648 →
      (inlined_func n = not_inlined_func n ∧
       (-1073741824 ≤ n → n < 1073741824 →
         inlined_func n = [toString (2 * n) ++ "!"])) := by
  intro n h1 h2
  refine ⟨rfl, ?_⟩
  intro h3 h4
  have hw : wrapI32 (n * 2) = 2 * n := by
    simp only [wrapI32]
    omega
  simp only [inlined_func, hw]

/-- C8 (witness): instantiated at the in-range input 3, where both
functions print exactly "6!". -/
theorem C8_inline_equivalence_witness :
    inlined_func 3 = not_inlined_func 3 ∧
    inlined_func 3 = [toString (2 * (3 : Int)) ++ "!"] :=
  ⟨(C8_inline_equivalence 3 (by decide) (by decide)).1,
   (C8_inline_equivalence 3 (by decide) (by decide)).2 (by decide) (by decide)⟩

/-- C9: the process identifier is read once, before the loop, and every
line of a single run carries that same identifier: the line data of any
two iterations agree on the pid field, and each printed line interpolates
the pid unchanged next to the current counter. -/
theorem C9_pid_constant_across_iterations :
    ∀ (pid k1 k2 : Nat),
      (rustloop_lineData pid k1).pid = (rustloop_lineData pid k2).pid ∧
      rustloop_output pid k1 =
        "rust looping (pid: " ++ toString pid ++ "): " ++
          toString (rustloop_ndx k1) :=
  fun _ _ _ => ⟨rfl, rfl⟩
